import Mathlib

/-!
Verification development for the statistical lottery prediction engine
(source file src/api/prediction.ts, class LottoPredictionEngine).

Modelling conventions, chosen to mirror the JavaScript source:

* A draw is the record of the six main balls B1..B6 and the bonus ball BB;
  the date field of the source record is never read by the engine and is
  omitted.  Draw histories are lists in storage order (index 0 first), and
  the recency window is the last 100 elements, i.e. index i is recent when
  len <= i + 100 (the source tests index >= draws.length - 100, which is
  the same condition over the integers).
* The source works with JavaScript floating point numbers.  All quantities
  the engine computes are modelled over the rationals; quantities that are
  provably integral (frequency weights 1.0 and 2.0, counts, draw sums) are
  tracked in Nat and cast into the rationals exactly where the source
  divides.  A JavaScript NaN (produced by 0/0 on empty windows and then
  propagated) is modelled by Option: none stands for NaN, and every
  comparison with none is false, as in JavaScript.  Math.sqrt is modelled
  by a rational square root approximation (exact on perfect squares and on
  zero); no theorem below depends on its rounding.
* Records with numeric keys (frequency tables, score tables) enumerate
  their entries in ascending numeric key order in JavaScript; Array sort
  is stable.  Entry lists are therefore built in ascending key order and
  sorted with the stable List.insertionSort.
* Math.random() is modelled by an injected stream g : Nat -> Rat together
  with an index that is threaded through the computation in execution
  order; stream values are assumed to lie in [0, 1) where a theorem needs
  it, exactly the contract of Math.random.
-/

/-- One historical draw: six main numbers and one bonus number
(source type LottoDraw; the date label is never read by the engine). -/
structure LottoDraw where
  B1 : ℕ
  B2 : ℕ
  B3 : ℕ
  B4 : ℕ
  B5 : ℕ
  B6 : ℕ
  BB : ℕ
deriving DecidableEq

/-- The six main numbers of a draw in field order
(source expression [draw.B1, draw.B2, draw.B3, draw.B4, draw.B5, draw.B6]). -/
def mainNums (d : LottoDraw) : List ℕ :=
  [d.B1, d.B2, d.B3, d.B4, d.B5, d.B6]

/-- Sum of the six main numbers of a draw (source: B1 + ... + B6). -/
def drawSum (d : LottoDraw) : ℕ :=
  d.B1 + d.B2 + d.B3 + d.B4 + d.B5 + d.B6

/-- The last k draws of the history, source expression draws.slice(-k). -/
def lastN (k : ℕ) (h : List LottoDraw) : List LottoDraw :=
  h.drop (h.length - k)

/-- Recency weight of the draw at index i in a history of length len:
2 inside the 100-draw recency window, 1 outside (source: index >=
draws.length - 100 selects weight 2.0, otherwise 1.0; the test
len <= i + 100 is the same inequality rearranged so that it also holds,
as in JavaScript, when len < 100 makes the right hand side negative). -/
def drawWeight (len i : ℕ) : ℕ :=
  if len ≤ i + 100 then 2 else 1

/-- Weighted all-time frequency of number n (source method
calculateAllTimeFrequency): every occurrence of n among the six main
numbers of a draw adds the recency weight of that draw.  The weights 1.0 and
2.0 are integral, so the table is tracked in Nat and cast to Rat at the
points where the source divides by it. -/
def calculateAllTimeFrequency (h : List LottoDraw) (n : ℕ) : ℕ :=
  h.enum.foldl
    (fun acc p => acc + (mainNums p.2).count n * drawWeight h.length p.1) 0

/-- Plain frequency of number n over the last drawCount draws (source
method calculateRecentFrequency: each occurrence adds 1). -/
def calculateRecentFrequency (h : List LottoDraw) (drawCount : ℕ) (n : ℕ) : ℕ :=
  ((lastN drawCount h).flatMap mainNums).count n

/-- Gap sequence of number n (source method calculateGaps): scanning the
history in storage order, the index distance between consecutive
appearances of n is recorded, twice when the later appearance lies in the
recency window; finally the current gap (draws since the last appearance)
is appended, twice when the last appearance lies in the recency window.
A number that never appears has an empty gap list. -/
def calculateGaps (h : List LottoDraw) (n : ℕ) : List ℕ :=
  let len := h.length
  let st := h.enum.foldl
    (fun (st : List ℕ × Option ℕ) p =>
      if n ∈ mainNums p.2 then
        match st.2 with
        | some ls =>
          (st.1 ++ (if len ≤ p.1 + 100 then [p.1 - ls, p.1 - ls] else [p.1 - ls]),
           some p.1)
        | none => (st.1, some p.1)
      else st)
    ([], none)
  match st.2 with
  | some ls =>
    st.1 ++ (if len ≤ ls + 100 then [len - 1 - ls, len - 1 - ls] else [len - 1 - ls])
  | none => st.1

/-- Current gap of number n: the trailing entry of its gap sequence, with 0
as default (source expression gapArray[gapArray.length - 1] || 0, which
also maps a trailing 0 to 0). -/
def currentGapOf (h : List LottoDraw) (n : ℕ) : ℕ :=
  ((calculateGaps h n).getLast?).getD 0

/-- Total weighted draw count (source method calculateTotalWeightedDraws):
all draws count double when there are at most 100, otherwise the last 100
count double and the rest count once.  Integral, hence tracked in Nat. -/
def calculateTotalWeightedDraws (len : ℕ) : ℕ :=
  if len ≤ 100 then len * 2 else (len - 100) + 100 * 2

/-- Expected gap of number n (source method calculateExpectedGaps): total
weighted draws divided by the weighted frequency when the latter is
positive, otherwise the total weighted draw count itself. -/
def calculateExpectedGaps (h : List LottoDraw) (n : ℕ) : ℚ :=
  let f := calculateAllTimeFrequency h n
  if 0 < f then (calculateTotalWeightedDraws h.length : ℚ) / (f : ℚ)
  else (calculateTotalWeightedDraws h.length : ℚ)

/-- The weighted multiset of per-draw sums (source method
analyzeSumDistribution): the sum of each draw is pushed once, and a second
time when the draw lies in the recency window. -/
def weightedSums (h : List LottoDraw) : List ℕ :=
  h.enum.flatMap
    (fun p => if h.length ≤ p.1 + 100 then [drawSum p.2, drawSum p.2] else [drawSum p.2])

/-- Average of a list of rationals; none models the JavaScript NaN that
0 / 0 produces on an empty list. -/
def avgQ (l : List ℚ) : Option ℚ :=
  match l with
  | [] => none
  | _ => some (l.sum / (l.length : ℚ))

/-- Mean of the weighted sum multiset (NaN, i.e. none, on empty history). -/
def sumMean (h : List LottoDraw) : Option ℚ :=
  avgQ ((weightedSums h).map (fun s : ℕ => (s : ℚ)))

/-- Variance of the weighted sum multiset (population variance, as in the
source: sum of squared deviations divided by the list length). -/
def sumVariance (h : List LottoDraw) : Option ℚ :=
  match sumMean h with
  | none => none
  | some m =>
    some ((((weightedSums h).map (fun s : ℕ => ((s : ℚ) - m) ^ 2)).sum)
      / ((weightedSums h).length : ℚ))

/-- Newton iteration for the integer square root, with explicit fuel so
that the definition is structurally recursive and kernel reducible. -/
def isqrtIter (n : ℕ) : ℕ → ℕ → ℕ
  | x, 0 => x
  | x, fuel + 1 =>
    let y := (x + n / x) / 2
    if y < x then isqrtIter n y fuel else x

/-- Integer square root used by the rational square root model. -/
def natSqrt (n : ℕ) : ℕ :=
  if n = 0 then 0 else isqrtIter n n 64

/-- Rational model of Math.sqrt for nonnegative arguments: the integer
square root of num * den divided by den.  Exact at 0 and whenever the
argument is a perfect rational square with converged iteration; otherwise
a floor-style approximation, standing in for floating point rounding.  No
theorem in this file depends on its value away from exact cases. -/
def sqrtQ (q : ℚ) : ℚ :=
  (natSqrt (q.num.toNat * q.den) : ℚ) / (q.den : ℚ)

/-- Standard deviation of the weighted sum multiset. -/
def sumStdDev (h : List LottoDraw) : Option ℚ :=
  Option.map sqrtQ (sumVariance h)

/-- JavaScript Math.round for finite arguments: round half toward
positive infinity. -/
def roundJS (q : ℚ) : ℤ :=
  ⌊q + 1 / 2⌋

/-- The optimal sum range (source method calculateOptimalSumRange):
mean plus and minus one standard deviation, rounded, with the rounded mean
as target.  On an empty history mean and deviation are NaN and so are the
three fields, modelled by none. -/
structure SumRange where
  lo : Option ℤ
  hi : Option ℤ
  target : Option ℤ
deriving DecidableEq

/-- Compute the optimal sum range from the sum distribution. -/
def calculateOptimalSumRange (h : List LottoDraw) : SumRange :=
  match sumMean h, sumStdDev h with
  | some m, some s => ⟨some (roundJS (m - s)), some (roundJS (m + s)), some (roundJS m)⟩
  | _, _ => ⟨none, none, none⟩

/-- Result record of the trend analysis (source method analyzeTrends).
Fields are Option valued because dividing by an empty window length
produces NaN in the source. -/
structure TrendRec where
  recentTrend : Option ℚ
  volatility : Option ℚ
deriving DecidableEq

/-- Trend analysis (source method analyzeTrends): compare the average sum
of the last 10 draws with the average sum of the 10 draws before them
(source slices draws.slice(-10) and draws.slice(-20, -10)), and report the
standard deviation of the last 10 sums as volatility.  With fewer than 11
draws the older window is empty, its average is NaN, and recentTrend is
NaN; with no draws at all both fields are NaN. -/
def analyzeTrends (h : List LottoDraw) : TrendRec :=
  let recentSums := (lastN 10 h).map (fun d => (drawSum d : ℚ))
  let olderSums := ((h.take (h.length - 10)).drop (h.length - 20)).map
    (fun d => (drawSum d : ℚ))
  let recentAvg := avgQ recentSums
  let olderAvg := avgQ olderSums
  { recentTrend :=
      match recentAvg, olderAvg with
      | some a, some b => some (a - b)
      | _, _ => none
    volatility :=
      match recentAvg with
      | some a =>
        some (sqrtQ ((recentSums.map (fun x => (x - a) ^ 2)).sum / (recentSums.length : ℚ)))
      | none => none }

/-- The sums of the last 30 draws, as integers (source: detectCycles reads
draws.slice(-30) and maps each draw to its six-number sum). -/
def cycleSums (h : List LottoDraw) : List ℤ :=
  (lastN 30 h).map (fun d => (drawSum d : ℤ))

/-- Cycle detection (source method detectCycles): a candidate length L in
3..10 is collected when for every i with i < L and i + L < sums.length the
sums at offsets i and i + L differ by at most 10.  Note the loop bound
i < L: only the first period is compared with the second. -/
def detectCycles (h : List LottoDraw) : List ℕ :=
  let sums := cycleSums h
  (List.range' 3 8).filter
    (fun L =>
      (List.range L).all
        (fun i =>
          decide (sums.length ≤ i + L) ||
          decide ((sums.getD i 0 - sums.getD (i + L) 0).natAbs ≤ 10)))

/-- Number of adjacent consecutive pairs in an already sorted list. -/
def countAdjConsec : List ℕ → ℕ
  | a :: b :: rest => (if b = a + 1 then 1 else 0) + countAdjConsec (b :: rest)
  | _ => 0

/-- Stable ascending sort on naturals, the model of the stable JavaScript
Array.prototype.sort with comparator (a, b) => a - b. -/
def sortAsc (l : List ℕ) : List ℕ :=
  l.insertionSort (fun a b => a ≤ b)

/-- Consecutive pair count of one draw (source: sort the six main numbers
ascending, then count adjacent pairs that differ by exactly one). -/
def consecCount (d : LottoDraw) : ℕ :=
  countAdjConsec (sortAsc (mainNums d))

/-- Consecutive pattern histogram (source method
analyzeConsecutivePatterns): for each count 0..5 the fraction of draws
with that many consecutive pairs; NaN (none) on an empty history. -/
def analyzeConsecutivePatterns (h : List LottoDraw) : List (ℕ × Option ℚ) :=
  [0, 1, 2, 3, 4, 5].map
    (fun c =>
      (c,
        match h with
        | [] => none
        | _ => some (((h.filter (fun d => consecCount d = c)).length : ℚ) / (h.length : ℚ))))

/-- Detected pattern narrative (source method detectPatterns): flag a high
or low bias when the average count of main numbers above 24 over the last
10 draws exceeds 4 or falls below 2, and flag elevated consecutive
frequency when the histogram entry found for count >= 2 has frequency
above 0.3.  All comparisons against NaN are false. -/
def detectPatterns (h : List LottoDraw) : List String :=
  let recent := lastN 10 h
  let highsAvg := avgQ (recent.map
    (fun d => (((mainNums d).filter (fun n => decide (24 < n))).length : ℚ)))
  let p1 : List String :=
    match highsAvg with
    | some a => if 4 < a then ["Recent bias toward high numbers"] else []
    | none => []
  let p2 : List String :=
    match highsAvg with
    | some a => if a < 2 then ["Recent bias toward low numbers"] else []
    | none => []
  let p3 : List String :=
    match (analyzeConsecutivePatterns h).find? (fun p => decide (2 ≤ p.1)) with
    | some (_, some f) => if 3 / 10 < f then ["Higher than normal consecutive number frequency"] else []
    | _ => []
  p1 ++ p2 ++ p3

/-- Present keys of a numeric-keyed JavaScript record built from the main
numbers of a window of draws: the distinct occurring numbers in ascending
order, the order in which Object.entries enumerates them. -/
def occurKeys (ds : List LottoDraw) : List ℕ :=
  sortAsc ((ds.flatMap mainNums).dedup)

/-- Hot numbers (source method identifyHotNumbers): the entries of the
15-draw frequency record, sorted stably by frequency descending, first 12
keys. -/
def identifyHotNumbers (h : List LottoDraw) : List ℕ :=
  ((occurKeys (lastN 15 h)).insertionSort
    (fun a b => calculateRecentFrequency h 15 b ≤ calculateRecentFrequency h 15 a)).take 12

/-- Cold numbers (source method identifyColdNumbers): the numbers 1..49
absent from the last 20 draws, in ascending order, first 15. -/
def identifyColdNumbers (h : List LottoDraw) : List ℕ :=
  ((List.range' 1 49).filter (fun n => calculateRecentFrequency h 20 n = 0)).take 15

/-- Ranking key of a due number (source sort comparator: current gap
divided by expected gap, descending). -/
def dueRank (h : List LottoDraw) (n : ℕ) : ℚ :=
  (currentGapOf h n : ℚ) / calculateExpectedGaps h n

/-- Due numbers (source method identifyDueNumbers): keys 1..49 of the gaps
record whose current gap exceeds 1.5 times the expected gap, sorted stably
by the ratio of current to expected gap descending, first 10. -/
def identifyDueNumbers (h : List LottoDraw) : List ℕ :=
  (((List.range' 1 49).filter
      (fun n => decide (calculateExpectedGaps h n * (3 / 2) < (currentGapOf h n : ℚ)))).insertionSort
    (fun a b => dueRank h b ≤ dueRank h a)).take 10

/-- Avoid numbers (source method identifyAvoidNumbers): entries of the
10-draw frequency record with frequency at least 3, sorted stably by
frequency descending, first 8 keys. -/
def identifyAvoidNumbers (h : List LottoDraw) : List ℕ :=
  (((occurKeys (lastN 10 h)).filter (fun n => decide (3 ≤ calculateRecentFrequency h 10 n))).insertionSort
    (fun a b => calculateRecentFrequency h 10 b ≤ calculateRecentFrequency h 10 a)).take 8

/-- Largest value of a list of naturals, none for the empty list (the
model of Math.max(...values), which is -Infinity on no arguments; the only
downstream use divides by it, and a finite value divided by -Infinity is
-0, contributing nothing, which the none branch of the user reproduces). -/
def listMax : List ℕ → Option ℕ
  | [] => none
  | x :: xs => some (xs.foldl max x)

/-- The analysis snapshot assembled by performCompleteAnalysis, restricted
to the fields that are consumed downstream by scoring, selection,
confidence, reasoning and the alternative set generator, plus the
informational trends and cycles fields.  The positional statistics and the
range bucket distribution of the source are computed but never read by any
later step and are not modelled. -/
structure Analysis where
  allTimeFrequency : ℕ → ℕ
  maxAllTimeFreq : Option ℕ
  recentFrequency : ℕ → ℕ
  gaps : ℕ → List ℕ
  expectedGaps : ℕ → ℚ
  trends : TrendRec
  cycles : List ℕ
  hotNumbers : List ℕ
  coldNumbers : List ℕ
  dueNumbers : List ℕ
  avoidNumbers : List ℕ
  optimalSumRange : SumRange
  detectedPatterns : List String

/-- Build the analysis snapshot from the draw history (source method
performCompleteAnalysis).  The field maxAllTimeFreq is the maximum over
the values of the all-time frequency record, i.e. over the frequencies of
the occurring numbers, which is how the scoring step reads
Math.max(...Object.values(analysis.allTimeFrequency)). -/
def performCompleteAnalysis (h : List LottoDraw) : Analysis where
  allTimeFrequency := calculateAllTimeFrequency h
  maxAllTimeFreq := listMax ((occurKeys h).map (calculateAllTimeFrequency h))
  recentFrequency := calculateRecentFrequency h 20
  gaps := calculateGaps h
  expectedGaps := calculateExpectedGaps h
  trends := analyzeTrends h
  cycles := detectCycles h
  hotNumbers := identifyHotNumbers h
  coldNumbers := identifyColdNumbers h
  dueNumbers := identifyDueNumbers h
  avoidNumbers := identifyAvoidNumbers h
  optimalSumRange := calculateOptimalSumRange h
  detectedPatterns := detectPatterns h

/-- The six-component weight configuration (source interface
PredictionWeights).  The constructor of the engine merges a caller
override over the defaults; callers of the model pass the merged record
directly. -/
structure PredictionWeights where
  frequency : ℚ
  recency : ℚ
  gaps : ℚ
  patterns : ℚ
  distribution : ℚ
  correlation : ℚ
deriving DecidableEq

/-- The default weight configuration of the engine constructor. -/
def defaultWeights : PredictionWeights :=
  ⟨1/4, 1/5, 1/5, 3/20, 1/10, 1/10⟩

/-- Frequency term of the score (source line score +=
(allTimeFreq / maxFreq) * this.weights.frequency * 100).  When the
frequency record is empty, Math.max of no values is -Infinity and the
frequency ratio is -0, contributing nothing; the none branch reproduces
that. -/
def freqTermOf (a : Analysis) (w : PredictionWeights) (n : ℕ) : ℚ :=
  match a.maxAllTimeFreq with
  | some m => (a.allTimeFrequency n : ℚ) / (m : ℚ) * w.frequency * 100
  | none => 0

/-- Recency term of the score (source line score +=
Math.min(recentFreq * 25, 100) * this.weights.recency). -/
def recTermOf (a : Analysis) (w : PredictionWeights) (n : ℕ) : ℚ :=
  min ((a.recentFrequency n : ℚ) * 25) 100 * w.recency

/-- Gap term of the score (source lines computing gapRatio from the
trailing gap entry and the expected gap, then score +=
Math.min(gapRatio * 50, 100) * this.weights.gaps). -/
def gapTermOf (a : Analysis) (w : PredictionWeights) (n : ℕ) : ℚ :=
  let cg : ℚ := ((((a.gaps n).getLast?).getD 0 : ℕ) : ℚ)
  let eg := a.expectedGaps n
  min ((if 0 < eg then cg / eg else 0) * 50) 100 * w.gaps

/-- Base score before the multiplicative adjustments: the sum of the
frequency, recency and gap terms. -/
def baseScoreOf (a : Analysis) (w : PredictionWeights) (n : ℕ) : ℚ :=
  freqTermOf a w n + recTermOf a w n + gapTermOf a w n

/-- Score of one number (body of the source loop in calculateNumberScores):
the frequency ratio term, the recency term and the gap term are summed,
then the avoid, due and hot multipliers are applied in that order. -/
def scoreOf (a : Analysis) (w : PredictionWeights) (n : ℕ) : ℚ :=
  let s1 := if n ∈ a.avoidNumbers then baseScoreOf a w n * (3/10) else baseScoreOf a w n
  let s2 := if n ∈ a.dueNumbers then s1 * (3/2) else s1
  if n ∈ a.hotNumbers then s2 * (6/5) else s2

/-- The score record (source method calculateNumberScores): one entry per
number 1..49, enumerated in ascending key order as Object.entries does. -/
def calculateNumberScores (a : Analysis) (w : PredictionWeights) : List (ℕ × ℚ) :=
  (List.range' 1 49).map (fun n => (n, scoreOf a w n))

/-- Stable descending sort of record entries by value, the model of the
stable JavaScript sort with comparator (a, b) => b[1] - a[1]. -/
def sortEntriesDesc (l : List (ℕ × ℚ)) : List (ℕ × ℚ) :=
  l.insertionSort (fun p q => q.2 ≤ p.2)

/-- Candidate order of the selection step: entry keys sorted by score
descending (ties in ascending key order, by stability). -/
def candidateOrder (scores : List (ℕ × ℚ)) : List ℕ :=
  (sortEntriesDesc scores).map (fun p => p.1)

/-- Sampling weight of the candidate at rank position i (source:
Math.pow(0.8, index)). -/
def geomWeight (i : ℕ) : ℚ :=
  (4/5) ^ i

/-- Sum of the sampling weights of len candidates starting at rank j
(source: weights.reduce((a, b) => a + b, 0), the sum of the weight
array). -/
def geomFrom : ℕ → ℕ → ℚ
  | _, 0 => 0
  | j, len + 1 => geomWeight j + geomFrom (j + 1) len

/-- Walk of the source inner selection loop: subtract the weight of each
candidate in rank order from the scaled random value and return the first
candidate at which the running value drops to 0 or below; none when the
walk falls off the end (which cannot happen for a random value below the
total weight, see pickLoop_eq_some). -/
def pickLoop : List ℕ → ℕ → ℚ → Option ℕ
  | [], _, _ => none
  | c :: rest, j, r =>
    let r2 := r - geomWeight j
    if r2 ≤ 0 then some c else pickLoop rest (j + 1) r2

/-- One iteration of the source for loop over i in 0..5: filter the not
yet selected candidates, scale the next random value by the total weight,
and append the picked candidate; exactly one random value is consumed. -/
def drawStep (cands : List ℕ) (g : ℕ → ℚ) (st : List ℕ × ℕ) : List ℕ × ℕ :=
  let avail := cands.filter (fun n => decide (n ∉ st.1))
  let total := geomFrom 0 avail.length
  let r := g st.2 * total
  match pickLoop avail 0 r with
  | some c => (st.1 ++ [c], st.2 + 1)
  | none => (st.1, st.2 + 1)

/-- One complete attempt of the source while loop body: six weighted
draws starting from the reset empty selection. -/
def drawSix (cands : List ℕ) (g : ℕ → ℚ) (k : ℕ) : List ℕ × ℕ :=
  (List.range 6).foldl (fun st _ => drawStep cands g st) ([], k)

/-- Sum constraint check of the selection loop (source: currentSum >= min
and currentSum <= max).  A NaN bound, modelled by none, makes both
comparisons false, as in JavaScript. -/
def sumOk (sel : List ℕ) (sr : SumRange) : Bool :=
  match sr.lo, sr.hi with
  | some lo, some hi => decide (lo ≤ (sel.sum : ℤ)) && decide ((sel.sum : ℤ) ≤ hi)
  | _, _ => false

/-- The source while loop (selected.length < 6 and attempts < maxAttempts):
fuel counts the remaining attempts out of 1000.  Each iteration resets the
selection, draws six numbers, breaks when the sum constraint holds, and
otherwise loops with the freshly drawn selection, whose length is checked
again by the loop condition. -/
def selectLoop (cands : List ℕ) (sr : SumRange) (g : ℕ → ℚ) :
    ℕ → List ℕ × ℕ → List ℕ × ℕ
  | 0, st => st
  | fuel + 1, st =>
    if st.1.length < 6 then
      let st2 := drawSix cands g st.2
      if sumOk st2.1 sr then st2 else selectLoop cands sr g fuel st2
    else st

/-- The constrained selection (source method selectOptimalNumbers): rank
the 49 numbers by score descending, run the attempt loop, and fall back to
the deterministic top six when the loop ends with other than six selected
numbers.  Returns the selection together with the next random index. -/
def selectOptimalNumbers (scores : List (ℕ × ℚ)) (a : Analysis) (g : ℕ → ℚ) (k : ℕ) :
    List ℕ × ℕ :=
  let candidates := candidateOrder scores
  let st := selectLoop candidates a.optimalSumRange g 1000 ([], k)
  (if st.1.length ≠ 6 then candidates.take 6 else st.1, st.2)

/-- Weighted frequency of bonus value n (source: the loop over draws in
predictBonusBall, adding the recency weight of each draw whose bonus ball
equals n). -/
def bonusFrequency (h : List LottoDraw) (n : ℕ) : ℕ :=
  h.enum.foldl
    (fun acc p => acc + (if p.2.BB = n then drawWeight h.length p.1 else 0)) 0

/-- Bonus score of number n (source, inside predictBonusBall): the
weighted bonus frequency relative to the maximum over the values of the
bonus frequency record, times 100.  The maximum ranges over the bonus
values of the draws, the present keys of the record; on an empty history
it is -Infinity and every score is -0, modelled by the none branch. -/
def bonusScoreOf (h : List LottoDraw) (n : ℕ) : ℚ :=
  match listMax ((h.map (fun d => d.BB)).map (bonusFrequency h)) with
  | some m => (bonusFrequency h n : ℚ) / (m : ℚ) * 100
  | none => 0

/-- The bonus score record, one entry per number 1..49 in ascending key
order. -/
def bonusEntries (h : List LottoDraw) : List (ℕ × ℚ) :=
  (List.range' 1 49).map (fun n => (n, bonusScoreOf h n))

/-- The first ten bonus candidates, ranked by bonus score descending. -/
def topBonusOf (h : List LottoDraw) : List ℕ :=
  (candidateOrder (bonusEntries h)).take 10

/-- Bonus ball prediction (source method predictBonusBall): rank the
bonus scores descending and pick a uniformly random index among the first
min(topBonus.length, 5) of the top ten.  Exactly one random value is
consumed. -/
def predictBonusBall (h : List LottoDraw) (g : ℕ → ℚ) (k : ℕ) : ℕ × ℕ :=
  let topBonus := topBonusOf h
  let idx := (⌊g k * ((min topBonus.length 5 : ℕ) : ℚ)⌋).toNat
  (topBonus.getD idx 0, k + 1)

/-- Confidence (source method calculateConfidence): 50, plus 8 per
selected due number, 5 per selected hot number, 3 per selected cold
number, minus 15 per selected avoid number, minus half the distance of the
selected sum from the target, clamped to [10, 95] by
Math.max(10, Math.min(95, c)).  A NaN target (empty history) makes the
whole expression NaN, modelled by none. -/
def calculateConfidence (a : Analysis) (sel : List ℕ) : Option ℚ :=
  match a.optimalSumRange.target with
  | none => none
  | some t =>
    let c : ℚ := 50
      + ((sel.filter (fun n => decide (n ∈ a.dueNumbers))).length : ℚ) * 8
      + ((sel.filter (fun n => decide (n ∈ a.hotNumbers))).length : ℚ) * 5
      + ((sel.filter (fun n => decide (n ∈ a.coldNumbers))).length : ℚ) * 3
      - ((sel.filter (fun n => decide (n ∈ a.avoidNumbers))).length : ℚ) * 15
      - ((((sel.sum : ℤ) - t).natAbs : ℕ) : ℚ) * (1/2)
    some (max 10 (min 95 c))

/-- Comma separated rendering of a number list (source: array.join with
a comma separator after template interpolation). -/
def numListStr (l : List ℕ) : String :=
  String.intercalate (", ") (l.map toString)

/-- Rendering of a possibly-NaN integer quantity inside a template
string. -/
def optStr : Option ℤ → String
  | some z => toString z
  | none => "NaN"

/-- Reasoning lines (source method generateReasoning): the fixed weighting
sentence, then one sentence each for the selected due, hot and cold
numbers when present, the sum sentence, the detected pattern sentence when
present, and the tri-band distribution sentence. -/
def generateReasoning (a : Analysis) (sel : List ℕ) : List String :=
  let due := sel.filter (fun n => decide (n ∈ a.dueNumbers))
  let hot := sel.filter (fun n => decide (n ∈ a.hotNumbers))
  let cold := sel.filter (fun n => decide (n ∈ a.coldNumbers))
  let r1 := ["Analysis uses doubled weight for last 100 draws vs normal weight for older data"]
  let r2 := if 0 < due.length then
    ["Selected " ++ toString due.length ++ " statistically due numbers: " ++ numListStr due]
    else []
  let r3 := if 0 < hot.length then
    ["Included " ++ toString hot.length ++ " recently hot numbers: " ++ numListStr hot]
    else []
  let r4 := if 0 < cold.length then
    ["Balanced with " ++ toString cold.length ++ " cold numbers for variety: " ++ numListStr cold]
    else []
  let r5 := ["Total sum (" ++ toString sel.sum ++ ") falls within weighted optimal range "
    ++ optStr a.optimalSumRange.lo ++ "-" ++ optStr a.optimalSumRange.hi]
  let r6 := if 0 < a.detectedPatterns.length then
    ["Considered detected patterns: " ++ String.intercalate ("; ") a.detectedPatterns]
    else []
  let low := (sel.filter (fun n => decide (n ≤ 16))).length
  let mid := (sel.filter (fun n => decide (16 < n) && decide (n ≤ 33))).length
  let high := (sel.filter (fun n => decide (33 < n))).length
  let r7 := ["Number distribution - Low(1-16): " ++ toString low ++ ", Mid(17-33): "
    ++ toString mid ++ ", High(34-49): " ++ toString high]
  r1 ++ r2 ++ r3 ++ r4 ++ r5 ++ r6 ++ r7

/-- The uniform sampling loop of the alternative set generator (source
while loop: while fewer than 6 selected and the pool is not empty, splice
out a uniformly random element and push it).  One random value is consumed
per iteration; need counts the remaining picks out of 6. -/
def sampleLoop (g : ℕ → ℚ) : ℕ → List ℕ → List ℕ → ℕ → List ℕ × ℕ
  | 0, _, sel, k => (sel, k)
  | _, [], sel, k => (sel, k)
  | need + 1, pool, sel, k =>
    let idx := (⌊g k * (pool.length : ℚ)⌋).toNat
    sampleLoop g need (pool.eraseIdx idx) (sel ++ [pool.getD idx 0]) (k + 1)

/-- Alternative sets (source method generateAlternativeSets): from the top
20 scored candidates, build the conservative pool (all-time frequency
above 10), the aggressive pool (due numbers then cold numbers, first 15)
and the balanced pool (the top 20 unchanged); sample six numbers from each
without replacement; keep a set only when six numbers were obtained, and
sort it ascending. -/
def generateAlternativeSets (scores : List (ℕ × ℚ)) (a : Analysis) (g : ℕ → ℚ) (k : ℕ) :
    List (List ℕ) × ℕ :=
  let topCandidates := (candidateOrder scores).take 20
  let pool0 := topCandidates.filter (fun n => decide (10 < a.allTimeFrequency n))
  let st0 := sampleLoop g 6 pool0 [] k
  let alt0 := if st0.1.length = 6 then [sortAsc st0.1] else []
  let pool1 := (a.dueNumbers ++ a.coldNumbers).take 15
  let st1 := sampleLoop g 6 pool1 [] st0.2
  let alt1 := if st1.1.length = 6 then [sortAsc st1.1] else []
  let st2 := sampleLoop g 6 topCandidates [] st1.2
  let alt2 := if st2.1.length = 6 then [sortAsc st2.1] else []
  (alt0 ++ alt1 ++ alt2, st2.2)

/-- The externally visible prediction result (source interface
PredictionResult, with the statisticalBasis sub-object flattened into the
sumRange and the four number lists and the pattern list). -/
structure PredictionResult where
  suggestedNumbers : List ℕ
  bonusBall : ℕ
  confidence : Option ℚ
  reasoning : List String
  hotNumbers : List ℕ
  coldNumbers : List ℕ
  dueNumbers : List ℕ
  avoidNumbers : List ℕ
  sumRange : SumRange
  detectedPatterns : List String
  alternativeSets : List (List ℕ)
deriving DecidableEq

/-- The full prediction pipeline (source method generatePrediction): build
the analysis snapshot, score the numbers, select the six suggested numbers
(sorted ascending in the result), predict the bonus ball, compute
confidence and reasoning, and generate the alternative sets.  The random
index is threaded in source execution order: selection first, then the
bonus ball, then the alternative sets. -/
def generatePrediction (h : List LottoDraw) (w : PredictionWeights) (g : ℕ → ℚ) :
    PredictionResult :=
  let a := performCompleteAnalysis h
  let scores := calculateNumberScores a w
  let selSt := selectOptimalNumbers scores a g 0
  let bonusSt := predictBonusBall h g selSt.2
  let conf := calculateConfidence a selSt.1
  let reasons := generateReasoning a selSt.1
  let altSt := generateAlternativeSets scores a g bonusSt.2
  { suggestedNumbers := sortAsc selSt.1
    bonusBall := bonusSt.1
    confidence := conf
    reasoning := reasons
    hotNumbers := a.hotNumbers
    coldNumbers := a.coldNumbers
    dueNumbers := a.dueNumbers
    avoidNumbers := a.avoidNumbers
    sumRange := a.optimalSumRange
    detectedPatterns := a.detectedPatterns
    alternativeSets := altSt.1 }

/-- Concrete draw with main numbers 1..6 and bonus 7, used by the
synthetic histories below. -/
def drawA : LottoDraw := ⟨1, 2, 3, 4, 5, 6, 7⟩

/-- Concrete draw with main numbers 1,2,3,4,5,7 and bonus 7. -/
def drawB : LottoDraw := ⟨1, 2, 3, 4, 5, 7, 7⟩

/-- The constant random stream with value one half. -/
def gHalf : ℕ → ℚ := fun _ => 1 / 2

/-- The constant random stream with value zero. -/
def gZero : ℕ → ℚ := fun _ => 0

/-- One-draw history. -/
def hOne : List LottoDraw := [drawA]

/-- Synthetic history of 150 identical draws 1..6 bonus 7. -/
def h150 : List LottoDraw := List.replicate 150 drawA

/-- Synthetic 22-draw history in which number 7 appears only in the first
two draws, making it both due and cold. -/
def h22 : List LottoDraw := drawB :: drawB :: List.replicate 20 drawA

/-- Draw with main number sum 100. -/
def drawS100 : LottoDraw := ⟨1, 2, 3, 4, 41, 49, 1⟩

/-- Draw with main number sum 150. -/
def drawS150 : LottoDraw := ⟨10, 20, 21, 30, 31, 38, 1⟩

/-- Eight-draw history whose sums are seven times 100 followed by 150. -/
def hCyc : List LottoDraw :=
  [drawS100, drawS100, drawS100, drawS100, drawS100, drawS100, drawS100, drawS150]

theorem sortAsc_perm (l : List ℕ) : (sortAsc l).Perm l :=
  List.perm_insertionSort _ l

theorem sortAsc_sorted (l : List ℕ) : List.Sorted (fun a b => a ≤ b) (sortAsc l) :=
  List.sorted_insertionSort _ l

theorem candidateOrder_perm (f : ℕ → ℚ) (l : List ℕ) :
    (candidateOrder (l.map (fun n => (n, f n)))).Perm l := by
  have h1 : (sortEntriesDesc (l.map (fun n => (n, f n)))).Perm (l.map (fun n => (n, f n))) :=
    List.perm_insertionSort _ _
  have h2 := h1.map (fun p : ℕ × ℚ => p.1)
  have h3 : List.map ((fun p : ℕ × ℚ => p.1) ∘ fun n => (n, f n)) l = l := by
    simp [Function.comp_def]
  simpa [candidateOrder, List.map_map, h3] using h2

theorem geomFrom_nonneg : ∀ (len j : ℕ), 0 ≤ geomFrom j len := by
  intro len
  induction len with
  | zero => intro j; simp [geomFrom]
  | succ n ih =>
    intro j
    have h1 : (0:ℚ) ≤ geomWeight j := by
      simp only [geomWeight]
      positivity
    have h2 := ih (j + 1)
    simp only [geomFrom]
    linarith

theorem pickLoop_eq_some : ∀ (l : List ℕ) (j : ℕ) (r : ℚ), l ≠ [] →
    r ≤ geomFrom j l.length → ∃ c, c ∈ l ∧ pickLoop l j r = some c := by
  intro l
  induction l with
  | nil => simp
  | cons c rest ih =>
    intro j r _ hr
    by_cases h0 : r - geomWeight j ≤ 0
    · exact ⟨c, by simp, by simp [pickLoop, h0]⟩
    · cases rest with
      | nil =>
        exfalso
        simp only [List.length_cons, List.length_nil, geomFrom] at hr
        have : (0:ℚ) < r - geomWeight j := lt_of_not_ge h0
        linarith
      | cons c2 rest2 =>
        have hr2 : r - geomWeight j ≤ geomFrom (j + 1) (c2 :: rest2).length := by
          simp only [List.length_cons, geomFrom] at hr ⊢
          linarith
        obtain ⟨c3, hc3, hpick⟩ := ih (j + 1) (r - geomWeight j) (by simp) hr2
        refine ⟨c3, by simp [hc3], ?_⟩
        show (if r - geomWeight j ≤ 0 then some c
          else pickLoop (c2 :: rest2) (j + 1) (r - geomWeight j)) = some c3
        rw [if_neg h0]
        exact hpick

theorem drawStep_spec (cands : List ℕ) (g : ℕ → ℚ) (st : List ℕ × ℕ)
    (hc : cands.Nodup) (hlen : st.1.length < cands.length)
    (hg0 : 0 ≤ g st.2) (hg1 : g st.2 < 1) :
    ∃ c, c ∈ cands ∧ c ∉ st.1 ∧ drawStep cands g st = (st.1 ++ [c], st.2 + 1) := by
  have havail : cands.filter (fun n => decide (n ∉ st.1)) ≠ [] := by
    intro hnil
    have hsub : cands ⊆ st.1 := by
      intro x hx
      by_contra hxnot
      have hmem : x ∈ cands.filter (fun n => decide (n ∉ st.1)) :=
        List.mem_filter.mpr ⟨hx, by simpa using hxnot⟩
      rw [hnil] at hmem
      exact (List.not_mem_nil x) hmem
    have := (List.subperm_of_subset hc hsub).length_le
    omega
  have htot : (0:ℚ) ≤ geomFrom 0 (cands.filter (fun n => decide (n ∉ st.1))).length :=
    geomFrom_nonneg _ 0
  have hr : g st.2 * geomFrom 0 (cands.filter (fun n => decide (n ∉ st.1))).length ≤
      geomFrom 0 (cands.filter (fun n => decide (n ∉ st.1))).length :=
    mul_le_of_le_one_left htot (le_of_lt hg1)
  obtain ⟨c, hcmem, hpick⟩ := pickLoop_eq_some _ 0 _ havail hr
  have hc1 : c ∈ cands := (List.mem_filter.mp hcmem).1
  have hc2 : c ∉ st.1 := by
    have := (List.mem_filter.mp hcmem).2
    simpa using this
  refine ⟨c, hc1, hc2, ?_⟩
  simp only [drawStep]
  rw [hpick]

theorem drawIter_spec (cands : List ℕ) (g : ℕ → ℚ) (hc : cands.Nodup)
    (hg : ∀ i, 0 ≤ g i ∧ g i < 1) :
    ∀ (m : ℕ) (st : List ℕ × ℕ), st.1.Nodup → st.1 ⊆ cands →
      st.1.length + m ≤ cands.length →
      ((List.range m).foldl (fun s _ => drawStep cands g s) st).1.length = st.1.length + m ∧
      ((List.range m).foldl (fun s _ => drawStep cands g s) st).1.Nodup ∧
      ((List.range m).foldl (fun s _ => drawStep cands g s) st).1 ⊆ cands ∧
      ((List.range m).foldl (fun s _ => drawStep cands g s) st).2 = st.2 + m := by
  intro m
  induction m with
  | zero => intro st h1 h2 _; simpa using ⟨h1, h2⟩
  | succ m ih =>
    intro st h1 h2 h3
    rw [List.range_succ, List.foldl_append]
    obtain ⟨hlen, hnd, hsub, hk⟩ := ih st h1 h2 (by omega)
    obtain ⟨c, hcmem, hcnot, heq⟩ :=
      drawStep_spec cands g ((List.range m).foldl (fun s _ => drawStep cands g s) st) hc
        (by omega) (hg _).1 (hg _).2
    simp only [List.foldl_cons, List.foldl_nil]
    rw [heq]
    refine ⟨by simp [hlen]; omega, ?_, ?_, by simp [hk]; omega⟩
    · simp [List.nodup_append, hnd, hcnot]
    · rw [List.append_subset]
      exact ⟨hsub, by simpa using hcmem⟩

theorem drawSix_spec (cands : List ℕ) (g : ℕ → ℚ) (k : ℕ)
    (hc : cands.Nodup) (h6 : 6 ≤ cands.length) (hg : ∀ i, 0 ≤ g i ∧ g i < 1) :
    (drawSix cands g k).1.length = 6 ∧ (drawSix cands g k).1.Nodup ∧
    (drawSix cands g k).1 ⊆ cands ∧ (drawSix cands g k).2 = k + 6 := by
  have := drawIter_spec cands g hc hg 6 ([], k) (by simp) (by simp) (by simpa)
  simpa [drawSix] using this

theorem selectLoop_of_six (cands : List ℕ) (sr : SumRange) (g : ℕ → ℚ) :
    ∀ (fuel : ℕ) (st : List ℕ × ℕ), st.1.length = 6 →
      selectLoop cands sr g fuel st = st := by
  intro fuel st h
  cases fuel with
  | zero => rfl
  | succ n => simp [selectLoop, h]

theorem selectLoop_first_attempt (cands : List ℕ) (sr : SumRange) (g : ℕ → ℚ)
    (fuel k : ℕ) (hdraw : (drawSix cands g k).1.length = 6) :
    selectLoop cands sr g (fuel + 1) ([], k) = drawSix cands g k := by
  show (if ([] : List ℕ).length < 6 then
    if sumOk (drawSix cands g k).1 sr then drawSix cands g k
    else selectLoop cands sr g fuel (drawSix cands g k)
    else ([], k)) = drawSix cands g k
  rw [if_pos (by simp)]
  by_cases hs : sumOk (drawSix cands g k).1 sr
  · rw [if_pos hs]
  · rw [if_neg hs]
    exact selectLoop_of_six cands sr g fuel _ hdraw

theorem selectOptimalNumbers_eq_drawSix (scores : List (ℕ × ℚ)) (a : Analysis)
    (g : ℕ → ℚ) (k : ℕ) (hc : (candidateOrder scores).Nodup)
    (h6 : 6 ≤ (candidateOrder scores).length) (hg : ∀ i, 0 ≤ g i ∧ g i < 1) :
    selectOptimalNumbers scores a g k = ((drawSix (candidateOrder scores) g k).1, k + 6) := by
  obtain ⟨hlen, _, _, hk⟩ := drawSix_spec _ g k hc h6 hg
  have h1000 : selectLoop (candidateOrder scores) a.optimalSumRange g 1000 ([], k)
      = drawSix (candidateOrder scores) g k := by
    have hfirst := selectLoop_first_attempt (candidateOrder scores) a.optimalSumRange g 999 k hlen
    norm_num at hfirst
    exact hfirst
  simp only [selectOptimalNumbers]
  rw [h1000]
  simp [hlen, hk]

theorem selectOptimalNumbers_fst (scores : List (ℕ × ℚ)) (a : Analysis)
    (g : ℕ → ℚ) (k : ℕ) (hc : (candidateOrder scores).Nodup)
    (h6 : 6 ≤ (candidateOrder scores).length) (hg : ∀ i, 0 ≤ g i ∧ g i < 1) :
    (selectOptimalNumbers scores a g k).1 = (drawSix (candidateOrder scores) g k).1 := by
  rw [selectOptimalNumbers_eq_drawSix scores a g k hc h6 hg]

theorem selectOptimalNumbers_snd (scores : List (ℕ × ℚ)) (a : Analysis)
    (g : ℕ → ℚ) (k : ℕ) (hc : (candidateOrder scores).Nodup)
    (h6 : 6 ≤ (candidateOrder scores).length) (hg : ∀ i, 0 ≤ g i ∧ g i < 1) :
    (selectOptimalNumbers scores a g k).2 = k + 6 := by
  rw [selectOptimalNumbers_eq_drawSix scores a g k hc h6 hg]

theorem weightedSums_ne_nil (h : List LottoDraw) (hne : h ≠ []) :
    weightedSums h ≠ [] := by
  intro hnil
  have hlen : h.enum ≠ [] := by
    intro he
    apply hne
    have := congrArg List.length he
    rw [List.enum_length] at this
    exact List.eq_nil_of_length_eq_zero this
  obtain ⟨p, hp⟩ := List.exists_mem_of_ne_nil _ hlen
  have := (List.flatMap_eq_nil_iff.mp hnil) p hp
  by_cases hrec : h.length ≤ p.1 + 100 <;> simp [hrec] at this

theorem sumMean_some (h : List LottoDraw) (hne : h ≠ []) :
    ∃ m : ℚ, sumMean h = some m := by
  unfold sumMean avgQ
  cases hws : weightedSums h with
  | nil => exact absurd hws (weightedSums_ne_nil h hne)
  | cons x xs => exact ⟨_, rfl⟩

theorem optimalSumRange_some (h : List LottoDraw) (hne : h ≠ []) :
    ∃ lo hi t : ℤ, calculateOptimalSumRange h = ⟨some lo, some hi, some t⟩ := by
  obtain ⟨m, hm⟩ := sumMean_some h hne
  have hv : sumVariance h = some ((((weightedSums h).map (fun s : ℕ => ((s : ℚ) - m) ^ 2)).sum)
      / ((weightedSums h).length : ℚ)) := by
    unfold sumVariance
    rw [hm]
  obtain ⟨s, hs2⟩ : ∃ s, sumStdDev h = some s :=
    ⟨sqrtQ ((((weightedSums h).map (fun s : ℕ => ((s : ℚ) - m) ^ 2)).sum)
        / ((weightedSums h).length : ℚ)), by
      unfold sumStdDev
      rw [hv]
      rfl⟩
  refine ⟨roundJS (m - s), roundJS (m + s), roundJS m, ?_⟩
  unfold calculateOptimalSumRange
  rw [hm, hs2]

theorem getD_mem_of_take (l : List ℕ) (idx : ℕ) (hidx : idx < 10) (hlen : 10 ≤ l.length) :
    (l.take 10).getD idx 0 ∈ l := by
  have h1 : idx < (l.take 10).length := by
    rw [List.length_take]
    rw [min_eq_left hlen]
    omega
  rw [List.getD_eq_getElem _ _ h1]
  exact List.take_subset 10 l (List.getElem_mem h1)

theorem pickTop_mem (sb : List ℕ) (q : ℚ) (hsb : sb.length = 49)
    (hq0 : 0 ≤ q) (hq1 : q < 1) :
    ((sb.take 10).getD (⌊q * ((min (sb.take 10).length 5 : ℕ) : ℚ)⌋).toNat 0) ∈ sb := by
  have htake : (sb.take 10).length = 10 := by
    rw [List.length_take, hsb]
    rfl
  have h5 : (min (sb.take 10).length 5 : ℕ) = 5 := by
    rw [htake]
    rfl
  rw [h5]
  have hc : ((5:ℕ):ℚ) = (5:ℚ) := by norm_num
  rw [hc]
  have hfl0 : 0 ≤ ⌊q * (5:ℚ)⌋ := by
    rw [Int.floor_nonneg]
    positivity
  have hfl5 : ⌊q * (5:ℚ)⌋ < 5 := by
    rw [Int.floor_lt]
    push_cast
    nlinarith
  exact getD_mem_of_take sb _ (by omega) (by omega)

theorem predictBonusBall_spec (h : List LottoDraw) (g : ℕ → ℚ) (k : ℕ)
    (hg0 : 0 ≤ g k) (hg1 : g k < 1) :
    (predictBonusBall h g k).1 ∈ List.range' 1 49 ∧ (predictBonusBall h g k).2 = k + 1 := by
  have hperm : (candidateOrder (bonusEntries h)).Perm (List.range' 1 49) :=
    candidateOrder_perm (bonusScoreOf h) (List.range' 1 49)
  have hlen : (candidateOrder (bonusEntries h)).length = 49 := by
    rw [hperm.length_eq, List.length_range']
  have hmem := pickTop_mem (candidateOrder (bonusEntries h)) (g k) hlen hg0 hg1
  constructor
  · simp only [predictBonusBall, topBonusOf]
    exact hperm.subset hmem
  · simp only [predictBonusBall]

theorem altSet_shape (scores : List (ℕ × ℚ)) (a : Analysis) (g : ℕ → ℚ) (k : ℕ) :
    ∀ s ∈ (generateAlternativeSets scores a g k).1,
      s.length = 6 ∧ List.Sorted (fun x y => x ≤ y) s := by
  intro s hs
  simp only [generateAlternativeSets, List.mem_append] at hs
  have hshape : ∀ (pool sel : List ℕ) (k2 : ℕ),
      s ∈ (if (sampleLoop g 6 pool sel k2).1.length = 6
        then [sortAsc (sampleLoop g 6 pool sel k2).1] else []) →
      s.length = 6 ∧ List.Sorted (fun x y => x ≤ y) s := by
    intro pool sel k2 hmem
    by_cases hlen6 : (sampleLoop g 6 pool sel k2).1.length = 6
    · rw [if_pos hlen6] at hmem
      simp only [List.mem_singleton] at hmem
      subst hmem
      exact ⟨by rw [(sortAsc_perm _).length_eq, hlen6], sortAsc_sorted _⟩
    · rw [if_neg hlen6] at hmem
      simp at hmem
  rcases hs with (h1 | h2) | h3
  · exact hshape _ _ _ h1
  · exact hshape _ _ _ h2
  · exact hshape _ _ _ h3

theorem scoreOf_congr (a : Analysis) (w1 w2 : PredictionWeights)
    (hf : w1.frequency = w2.frequency) (hr : w1.recency = w2.recency)
    (hgp : w1.gaps = w2.gaps) (n : ℕ) : scoreOf a w1 n = scoreOf a w2 n := by
  simp only [scoreOf, baseScoreOf, freqTermOf, recTermOf, gapTermOf, hf, hr, hgp]

theorem calculateNumberScores_congr (a : Analysis) (w1 w2 : PredictionWeights)
    (hf : w1.frequency = w2.frequency) (hr : w1.recency = w2.recency)
    (hgp : w1.gaps = w2.gaps) :
    calculateNumberScores a w1 = calculateNumberScores a w2 := by
  simp only [calculateNumberScores]
  have hfun : (fun n => (n, scoreOf a w1 n)) = (fun n => (n, scoreOf a w2 n)) := by
    funext n
    rw [scoreOf_congr a w1 w2 hf hr hgp n]
  rw [hfun]

theorem gp_suggested (h : List LottoDraw) (w : PredictionWeights) (g : ℕ → ℚ) :
    (generatePrediction h w g).suggestedNumbers
      = sortAsc (selectOptimalNumbers (calculateNumberScores (performCompleteAnalysis h) w)
          (performCompleteAnalysis h) g 0).1 := by
  simp only [generatePrediction]

theorem gp_bonus (h : List LottoDraw) (w : PredictionWeights) (g : ℕ → ℚ) :
    (generatePrediction h w g).bonusBall
      = (predictBonusBall h g
          (selectOptimalNumbers (calculateNumberScores (performCompleteAnalysis h) w)
            (performCompleteAnalysis h) g 0).2).1 := by
  simp only [generatePrediction]

theorem gp_confidence (h : List LottoDraw) (w : PredictionWeights) (g : ℕ → ℚ) :
    (generatePrediction h w g).confidence
      = calculateConfidence (performCompleteAnalysis h)
          (selectOptimalNumbers (calculateNumberScores (performCompleteAnalysis h) w)
            (performCompleteAnalysis h) g 0).1 := by
  simp only [generatePrediction]

theorem gp_altSets (h : List LottoDraw) (w : PredictionWeights) (g : ℕ → ℚ) :
    (generatePrediction h w g).alternativeSets
      = (generateAlternativeSets (calculateNumberScores (performCompleteAnalysis h) w)
          (performCompleteAnalysis h) g
          (predictBonusBall h g
            (selectOptimalNumbers (calculateNumberScores (performCompleteAnalysis h) w)
              (performCompleteAnalysis h) g 0).2).2).1 := by
  simp only [generatePrediction]

theorem clamp_bounds (c : ℚ) : 10 ≤ max 10 (min 95 c) ∧ max 10 (min 95 c) ≤ 95 :=
  ⟨le_max_left _ _, max_le (by norm_num) (min_le_left _ _)⟩

theorem freqTermOf_nonneg (a : Analysis) (w : PredictionWeights) (n : ℕ)
    (h1 : 0 ≤ w.frequency) : 0 ≤ freqTermOf a w n := by
  unfold freqTermOf
  cases a.maxAllTimeFreq with
  | none => norm_num
  | some m =>
    have hd : (0:ℚ) ≤ (a.allTimeFrequency n : ℚ) / (m : ℚ) :=
      div_nonneg (by positivity) (by positivity)
    have := mul_nonneg hd h1
    nlinarith

theorem recTermOf_nonneg (a : Analysis) (w : PredictionWeights) (n : ℕ)
    (h2 : 0 ≤ w.recency) : 0 ≤ recTermOf a w n := by
  unfold recTermOf
  have hm : (0:ℚ) ≤ min ((a.recentFrequency n : ℚ) * 25) 100 :=
    le_min (by positivity) (by norm_num)
  exact mul_nonneg hm h2

theorem gapTermOf_nonneg (a : Analysis) (w : PredictionWeights) (n : ℕ)
    (h3 : 0 ≤ w.gaps) : 0 ≤ gapTermOf a w n := by
  unfold gapTermOf
  have hratio : (0:ℚ) ≤
      (if 0 < a.expectedGaps n
        then (((((a.gaps n).getLast?).getD 0 : ℕ)) : ℚ) / a.expectedGaps n else 0) := by
    split
    case isTrue heg => exact div_nonneg (by positivity) (le_of_lt heg)
    case isFalse => norm_num
  have hm : (0:ℚ) ≤ min ((if 0 < a.expectedGaps n
      then (((((a.gaps n).getLast?).getD 0 : ℕ)) : ℚ) / a.expectedGaps n else 0) * 50) 100 :=
    le_min (by nlinarith) (by norm_num)
  exact mul_nonneg hm h3

theorem scoreOf_nonneg (a : Analysis) (w : PredictionWeights) (n : ℕ)
    (h1 : 0 ≤ w.frequency) (h2 : 0 ≤ w.recency) (h3 : 0 ≤ w.gaps) :
    0 ≤ scoreOf a w n := by
  have hbase : 0 ≤ baseScoreOf a w n :=
    add_nonneg (add_nonneg (freqTermOf_nonneg a w n h1) (recTermOf_nonneg a w n h2))
      (gapTermOf_nonneg a w n h3)
  simp only [scoreOf]
  have hs1 : 0 ≤ (if n ∈ a.avoidNumbers then baseScoreOf a w n * (3/10)
      else baseScoreOf a w n) := by
    split
    · nlinarith
    · exact hbase
  have hs2 : 0 ≤ (if n ∈ a.dueNumbers
      then (if n ∈ a.avoidNumbers then baseScoreOf a w n * (3/10) else baseScoreOf a w n) * (3/2)
      else (if n ∈ a.avoidNumbers then baseScoreOf a w n * (3/10) else baseScoreOf a w n)) := by
    split
    · nlinarith
    · exact hs1
  split
  · nlinarith
  · exact hs2

theorem generatePrediction_shape (h : List LottoDraw) (w : PredictionWeights) (g : ℕ → ℚ)
    (hg : ∀ i, 0 ≤ g i ∧ g i < 1) :
    (generatePrediction h w g).suggestedNumbers.length = 6 ∧
    (generatePrediction h w g).suggestedNumbers.Nodup ∧
    List.Sorted (fun x y => x ≤ y) (generatePrediction h w g).suggestedNumbers ∧
    (generatePrediction h w g).suggestedNumbers ⊆ List.range' 1 49 ∧
    (generatePrediction h w g).bonusBall ∈ List.range' 1 49 ∧
    (generatePrediction h w g).suggestedNumbers
      = sortAsc (drawSix (candidateOrder (calculateNumberScores (performCompleteAnalysis h) w))
          g 0).1 := by
  have hperm : (candidateOrder (calculateNumberScores (performCompleteAnalysis h) w)).Perm
      (List.range' 1 49) :=
    candidateOrder_perm (scoreOf (performCompleteAnalysis h) w) (List.range' 1 49)
  have hnodup : (candidateOrder (calculateNumberScores (performCompleteAnalysis h) w)).Nodup :=
    hperm.symm.nodup (List.nodup_range' 1 49)
  have hlen49 : (candidateOrder (calculateNumberScores (performCompleteAnalysis h) w)).length
      = 49 := by
    rw [hperm.length_eq]
    simp
  obtain ⟨hdlen, hdnodup, hdsub, hdk⟩ :=
    drawSix_spec (candidateOrder (calculateNumberScores (performCompleteAnalysis h) w)) g 0
      hnodup (by omega) hg
  have hsel := selectOptimalNumbers_fst
    (calculateNumberScores (performCompleteAnalysis h) w) (performCompleteAnalysis h) g 0
    hnodup (by omega) hg
  have hsug := gp_suggested h w g
  rw [hsel] at hsug
  have hsugperm := sortAsc_perm
    (drawSix (candidateOrder (calculateNumberScores (performCompleteAnalysis h) w)) g 0).1
  refine ⟨?_, ?_, ?_, ?_, ?_, hsug⟩
  · rw [hsug, hsugperm.length_eq, hdlen]
  · rw [hsug]
    exact hsugperm.symm.nodup hdnodup
  · rw [hsug]
    exact sortAsc_sorted _
  · rw [hsug]
    intro x hx
    exact hperm.subset (hdsub (hsugperm.subset hx))
  · have hb := predictBonusBall_spec h g
      (selectOptimalNumbers (calculateNumberScores (performCompleteAnalysis h) w)
        (performCompleteAnalysis h) g 0).2 (hg _).1 (hg _).2
    rw [gp_bonus h w g]
    exact hb.1

theorem avgQ_nil : avgQ [] = none := rfl

theorem avgQ_cons (x : ℚ) (xs : List ℚ) :
    avgQ (x :: xs) = some ((x :: xs).sum / ((x :: xs).length : ℚ)) := rfl

set_option maxRecDepth 4000

/-- C1: the claim describes the constrained selection as repeating up to
1000 weighted-sampling attempts and returning a set that fails the sum
constraint only as the deterministic top-6 fallback after all attempts are
exhausted.  The code contradicts this: its while condition
selected.length < 6 is false as soon as one attempt has drawn six numbers,
so exactly one attempt ever runs.  At the failing input (the one-draw
history with main numbers 1..6 bonus 7, default weights, the constant
random stream one half) the single attempt draws [4,5,6,7,8,9], whose sum
39 lies outside the optimal sum range [21,21]; the procedure consumes
exactly 6 random values (one attempt) and returns that set, which is
neither sum-satisfying nor the deterministic top six [1,2,3,4,5,6].
The attempt counter, the maxAttempts bound of 1000 and the fallback
branch of the source are thereby dead code, contradicting their evident
intent, so this is recorded as a bug in the code. -/
theorem c1_single_attempt_code_bug :
    selectOptimalNumbers (calculateNumberScores (performCompleteAnalysis hOne) defaultWeights)
        (performCompleteAnalysis hOne) gHalf 0 = ([4, 5, 6, 7, 8, 9], 6) ∧
    sumOk [4, 5, 6, 7, 8, 9] (performCompleteAnalysis hOne).optimalSumRange = false ∧
    (performCompleteAnalysis hOne).optimalSumRange = ⟨some 21, some 21, some 21⟩ ∧
    (candidateOrder (calculateNumberScores (performCompleteAnalysis hOne) defaultWeights)).take 6
      = [1, 2, 3, 4, 5, 6] := by
  refine ⟨?_, ?_, ?_, ?_⟩ <;> with_unfolding_all decide

/-- C2: for every non-empty draw history, every weight configuration and
every random stream with values in [0, 1), generatePrediction returns
exactly 6 distinct main numbers, each an integer in [1, 49], sorted
ascending, plus one bonus number in [1, 49]. -/
theorem c2_prediction_well_formed (h : List LottoDraw) (w : PredictionWeights)
    (g : ℕ → ℚ) (hne : h ≠ []) (hg : ∀ i, 0 ≤ g i ∧ g i < 1) :
    (generatePrediction h w g).suggestedNumbers.length = 6 ∧
    (generatePrediction h w g).suggestedNumbers.Nodup ∧
    List.Sorted (fun x y => x ≤ y) (generatePrediction h w g).suggestedNumbers ∧
    (generatePrediction h w g).suggestedNumbers ⊆ List.range' 1 49 ∧
    (generatePrediction h w g).bonusBall ∈ List.range' 1 49 := by
  obtain ⟨h1, h2, h3, h4, h5, _⟩ := generatePrediction_shape h w g hg
  exact ⟨h1, h2, h3, h4, h5⟩

/-- Witness for C2 at the one-draw history, default weights and the
constant stream one half. -/
theorem c2_prediction_well_formed_witness :
    (generatePrediction hOne defaultWeights gHalf).suggestedNumbers.length = 6 ∧
    (generatePrediction hOne defaultWeights gHalf).suggestedNumbers.Nodup ∧
    List.Sorted (fun x y => x ≤ y)
      (generatePrediction hOne defaultWeights gHalf).suggestedNumbers ∧
    (generatePrediction hOne defaultWeights gHalf).suggestedNumbers ⊆ List.range' 1 49 ∧
    (generatePrediction hOne defaultWeights gHalf).bonusBall ∈ List.range' 1 49 :=
  c2_prediction_well_formed hOne defaultWeights gHalf (by decide)
    (fun i => by constructor <;> norm_num [gHalf])

/-- C5: for every draw history, every weight configuration with
non-negative components and every number, the computed score is
non-negative. -/
theorem c5_scores_nonneg (h : List LottoDraw) (w : PredictionWeights) (n : ℕ)
    (h1 : 0 ≤ w.frequency) (h2 : 0 ≤ w.recency) (h3 : 0 ≤ w.gaps)
    (h4 : 0 ≤ w.patterns) (h5 : 0 ≤ w.distribution) (h6 : 0 ≤ w.correlation) :
    0 ≤ scoreOf (performCompleteAnalysis h) w n :=
  scoreOf_nonneg (performCompleteAnalysis h) w n h1 h2 h3

/-- Witness for C5 at the one-draw history, default weights and number 3. -/
theorem c5_scores_nonneg_witness :
    0 ≤ scoreOf (performCompleteAnalysis hOne) defaultWeights 3 :=
  c5_scores_nonneg hOne defaultWeights 3 (by norm_num [defaultWeights])
    (by norm_num [defaultWeights]) (by norm_num [defaultWeights])
    (by norm_num [defaultWeights]) (by norm_num [defaultWeights])
    (by norm_num [defaultWeights])

/-- C6 counterexample: on the synthetic history of 150 identical draws
1..6 bonus 7, the number 49 is never drawn but does NOT appear in the cold
set, because the cold set keeps only the first 15 absent numbers in
ascending order, which are 7..21. -/
theorem c6_cold_set_counterexample : 49 ∉ identifyColdNumbers h150 := by
  with_unfolding_all decide

/-- C6 amended: on the synthetic history of 150 identical draws 1..6
bonus 7, the all-time weighted frequency of each of the numbers 1..6 is
2 x 100 + 1 x 50 = 250, and the cold set is exactly [7, ..., 21]: the
never-drawn number 7 is in the cold set, while the never-drawn number 49
is cut off by the 15-element cap. -/
theorem c6_frequency_and_cold_set :
    calculateAllTimeFrequency h150 1 = 250 ∧ calculateAllTimeFrequency h150 2 = 250 ∧
    calculateAllTimeFrequency h150 3 = 250 ∧ calculateAllTimeFrequency h150 4 = 250 ∧
    calculateAllTimeFrequency h150 5 = 250 ∧ calculateAllTimeFrequency h150 6 = 250 ∧
    identifyColdNumbers h150 = List.range' 7 15 ∧ 7 ∈ identifyColdNumbers h150 := by
  refine ⟨?_, ?_, ?_, ?_, ?_, ?_, ?_, ?_⟩ <;> with_unfolding_all decide

/-- C7 counterexample: on the eight-draw history whose sums are seven
times 100 followed by one 150, the code detects cycle length 3 (it only
compares offsets i < 3), although the sums at offsets 4 and 7 differ by
50, violating the claimed condition for every valid offset. -/
theorem c7_cycle_counterexample :
    3 ∈ detectCycles hCyc ∧
    ¬ (∀ i, i + 3 < (cycleSums hCyc).length →
        ((cycleSums hCyc).getD i 0 - (cycleSums hCyc).getD (i + 3) 0).natAbs ≤ 10) := by
  refine ⟨by with_unfolding_all decide, fun hall => ?_⟩
  have h4 := hall 4 (by with_unfolding_all decide)
  have hno : ¬ (((cycleSums hCyc).getD 4 0 - (cycleSums hCyc).getD (4 + 3) 0).natAbs ≤ 10) := by
    with_unfolding_all decide
  exact hno h4

/-- C7 amended: a cycle length L in 3..10 is reported exactly when for
every offset i below L (not every valid offset) with i + L inside the sum
sequence, the sums at offsets i and i + L differ by at most 10. -/
theorem c7_cycles_iff (h : List LottoDraw) (L : ℕ) :
    L ∈ detectCycles h ↔
      (3 ≤ L ∧ L < 11) ∧
      ∀ i, i < L → i + L < (cycleSums h).length →
        ((cycleSums h).getD i 0 - (cycleSums h).getD (i + L) 0).natAbs ≤ 10 := by
  simp only [detectCycles, List.mem_filter, List.all_eq_true, List.mem_range,
    Bool.or_eq_true, decide_eq_true_eq, List.mem_range'_1]
  constructor
  · rintro ⟨⟨h3, h11⟩, hall⟩
    refine ⟨⟨h3, by omega⟩, ?_⟩
    intro i hiL hlen
    rcases hall i hiL with hc | hc
    · omega
    · exact hc
  · rintro ⟨⟨h3, h11⟩, hall⟩
    refine ⟨⟨h3, by omega⟩, ?_⟩
    intro i hiL
    by_cases hlen : i + L < (cycleSums h).length
    · exact Or.inr (hall i hiL hlen)
    · exact Or.inl (by omega)

/-- C3 counterexample: on the empty draw history the mean of the sum
distribution is 0/0, i.e. NaN, so the target of the optimal sum range and
with it the computed confidence are NaN (modelled by none) for every
selected set; in particular the confidence of the prediction for the
empty history is not a number in [10, 95]. -/
theorem c3_confidence_counterexample :
    calculateConfidence (performCompleteAnalysis []) [1, 2, 3, 4, 5, 6] = none ∧
    (generatePrediction [] defaultWeights gHalf).confidence = none := by
  refine ⟨by with_unfolding_all decide, ?_⟩
  rw [gp_confidence]
  with_unfolding_all decide

/-- C3 amended: for every NON-EMPTY draw history and every selected set,
the confidence equals 50, plus 8 per selected number in the due set, plus
5 per selected hot number, plus 3 per selected cold number, minus 15 per
selected avoid number, minus one half of the absolute difference between
the selected sum and the target sum, clamped to [10, 95]; in particular it
lies in [10, 95].  On the empty history the confidence is NaN instead
(see the counterexample). -/
theorem c3_confidence_formula (h : List LottoDraw) (sel : List ℕ) (hne : h ≠ []) :
    ∃ t : ℤ, (performCompleteAnalysis h).optimalSumRange.target = some t ∧
    ∃ c : ℚ, calculateConfidence (performCompleteAnalysis h) sel = some c ∧
      c = max 10 (min 95 (50
        + ((sel.filter (fun n => decide (n ∈ (performCompleteAnalysis h).dueNumbers))).length : ℚ) * 8
        + ((sel.filter (fun n => decide (n ∈ (performCompleteAnalysis h).hotNumbers))).length : ℚ) * 5
        + ((sel.filter (fun n => decide (n ∈ (performCompleteAnalysis h).coldNumbers))).length : ℚ) * 3
        - ((sel.filter (fun n => decide (n ∈ (performCompleteAnalysis h).avoidNumbers))).length : ℚ) * 15
        - ((((sel.sum : ℤ) - t).natAbs : ℕ) : ℚ) * (1/2))) ∧
      10 ≤ c ∧ c ≤ 95 := by
  obtain ⟨lo, hi, t, hr⟩ := optimalSumRange_some h hne
  have ht : (performCompleteAnalysis h).optimalSumRange.target = some t := by
    show (calculateOptimalSumRange h).target = some t
    rw [hr]
  have hconf : calculateConfidence (performCompleteAnalysis h) sel
      = some (max 10 (min 95 (50
        + ((sel.filter (fun n => decide (n ∈ (performCompleteAnalysis h).dueNumbers))).length : ℚ) * 8
        + ((sel.filter (fun n => decide (n ∈ (performCompleteAnalysis h).hotNumbers))).length : ℚ) * 5
        + ((sel.filter (fun n => decide (n ∈ (performCompleteAnalysis h).coldNumbers))).length : ℚ) * 3
        - ((sel.filter (fun n => decide (n ∈ (performCompleteAnalysis h).avoidNumbers))).length : ℚ) * 15
        - ((((sel.sum : ℤ) - t).natAbs : ℕ) : ℚ) * (1/2)))) := by
    simp only [calculateConfidence]
    rw [ht]
  exact ⟨t, ht, _, hconf, rfl, (clamp_bounds _).1, (clamp_bounds _).2⟩

/-- Witness for C3 amended at the one-draw history and the selection
[1,2,3,4,5,6]. -/
theorem c3_confidence_formula_witness :
    ∃ t : ℤ, (performCompleteAnalysis hOne).optimalSumRange.target = some t ∧
    ∃ c : ℚ, calculateConfidence (performCompleteAnalysis hOne) [1, 2, 3, 4, 5, 6] = some c ∧
      c = max 10 (min 95 (50
        + (([1, 2, 3, 4, 5, 6].filter (fun n => decide (n ∈ (performCompleteAnalysis hOne).dueNumbers))).length : ℚ) * 8
        + (([1, 2, 3, 4, 5, 6].filter (fun n => decide (n ∈ (performCompleteAnalysis hOne).hotNumbers))).length : ℚ) * 5
        + (([1, 2, 3, 4, 5, 6].filter (fun n => decide (n ∈ (performCompleteAnalysis hOne).coldNumbers))).length : ℚ) * 3
        - (([1, 2, 3, 4, 5, 6].filter (fun n => decide (n ∈ (performCompleteAnalysis hOne).avoidNumbers))).length : ℚ) * 15
        - (((([1, 2, 3, 4, 5, 6].sum : ℤ) - t).natAbs : ℕ) : ℚ) * (1/2))) ∧
      10 ≤ c ∧ c ≤ 95 :=
  c3_confidence_formula hOne [1, 2, 3, 4, 5, 6] (by decide)

/-- C4 counterexample: on the empty history the selection does NOT fall
through to the deterministic fallback: with the constant random stream one
half the single weighted-sampling attempt returns [4,5,6,7,8,9] (the sum
check against the NaN range always fails but the loop still ends), while
the deterministic top-6 fallback would be [1,2,3,4,5,6]. -/
theorem c4_empty_history_counterexample :
    (generatePrediction [] defaultWeights gHalf).suggestedNumbers = [4, 5, 6, 7, 8, 9] ∧
    sortAsc ((candidateOrder
        (calculateNumberScores (performCompleteAnalysis []) defaultWeights)).take 6)
      = [1, 2, 3, 4, 5, 6] ∧
    ([4, 5, 6, 7, 8, 9] : List ℕ) ≠ [1, 2, 3, 4, 5, 6] := by
  refine ⟨?_, ?_, ?_⟩ <;> with_unfolding_all decide

/-- C4 amended: on the empty draw history generatePrediction still
returns a complete result whose suggested numbers are 6 distinct sorted
numbers in [1, 49] and whose bonus ball lies in [1, 49]; however the
selection is the first weighted-random attempt, not the deterministic
fallback (the sum check against the NaN range always fails and the loop
exits after one attempt), and the confidence field is NaN (none). -/
theorem c4_empty_history (w : PredictionWeights) (g : ℕ → ℚ)
    (hg : ∀ i, 0 ≤ g i ∧ g i < 1) :
    (generatePrediction [] w g).suggestedNumbers.length = 6 ∧
    (generatePrediction [] w g).suggestedNumbers.Nodup ∧
    List.Sorted (fun x y => x ≤ y) (generatePrediction [] w g).suggestedNumbers ∧
    (generatePrediction [] w g).suggestedNumbers ⊆ List.range' 1 49 ∧
    (generatePrediction [] w g).bonusBall ∈ List.range' 1 49 ∧
    (generatePrediction [] w g).suggestedNumbers
      = sortAsc (drawSix (candidateOrder
          (calculateNumberScores (performCompleteAnalysis []) w)) g 0).1 ∧
    (generatePrediction [] w g).confidence = none := by
  obtain ⟨h1, h2, h3, h4, h5, h6⟩ := generatePrediction_shape [] w g hg
  refine ⟨h1, h2, h3, h4, h5, h6, ?_⟩
  rw [gp_confidence]
  have ht : (performCompleteAnalysis ([] : List LottoDraw)).optimalSumRange.target = none := by
    with_unfolding_all decide
  simp only [calculateConfidence]
  rw [ht]

/-- Witness for C4 amended at default weights and the constant stream one
half. -/
theorem c4_empty_history_witness :
    (generatePrediction [] defaultWeights gHalf).suggestedNumbers.length = 6 ∧
    (generatePrediction [] defaultWeights gHalf).suggestedNumbers.Nodup ∧
    List.Sorted (fun x y => x ≤ y) (generatePrediction [] defaultWeights gHalf).suggestedNumbers ∧
    (generatePrediction [] defaultWeights gHalf).suggestedNumbers ⊆ List.range' 1 49 ∧
    (generatePrediction [] defaultWeights gHalf).bonusBall ∈ List.range' 1 49 ∧
    (generatePrediction [] defaultWeights gHalf).suggestedNumbers
      = sortAsc (drawSix (candidateOrder
          (calculateNumberScores (performCompleteAnalysis []) defaultWeights)) gHalf 0).1 ∧
    (generatePrediction [] defaultWeights gHalf).confidence = none :=
  c4_empty_history defaultWeights gHalf (fun i => by constructor <;> norm_num [gHalf])

/-- C8 counterexample: on a one-draw history (fewer than 10 draws) the
older window of the trend analysis is empty and its average is 0/0, which
is NaN and propagates: recentTrend is NaN (none), not the 0-substituted
value 21 - 0 that the claimed division-by-zero guard would produce. -/
theorem c8_trends_counterexample :
    hOne.length < 10 ∧
    (analyzeTrends hOne).recentTrend = none ∧
    (analyzeTrends hOne).recentTrend ≠ some ((21 : ℚ) - 0) := by
  refine ⟨by decide, ?_, ?_⟩ <;> with_unfolding_all decide

/-- C8 amended: the trend analysis is a total function (it cannot throw),
and for every non-empty history with fewer than 10 draws the older window
is empty, so recentTrend is NaN (none) because the division by the empty
window length is NOT guarded, while volatility is still a defined
rational. -/
theorem c8_trends_short_history (h : List LottoDraw) (hne : h ≠ [])
    (hlt : h.length < 10) :
    (analyzeTrends h).recentTrend = none ∧
    ∃ v : ℚ, (analyzeTrends h).volatility = some v := by
  have h10 : h.length - 10 = 0 := by omega
  have hrec : lastN 10 h = h := by
    unfold lastN
    rw [h10, List.drop_zero]
  have hold : (h.take (h.length - 10)).drop (h.length - 20) = [] := by
    rw [h10, List.take_zero, List.drop_nil]
  cases h with
  | nil => exact absurd rfl hne
  | cons d t =>
    simp only [analyzeTrends, hrec, hold, List.map_nil, List.map_cons, avgQ_nil, avgQ_cons]
    exact ⟨trivial, _, rfl⟩

/-- Witness for C8 amended at the one-draw history. -/
theorem c8_trends_short_history_witness :
    (analyzeTrends hOne).recentTrend = none ∧
    ∃ v : ℚ, (analyzeTrends hOne).volatility = some v :=
  c8_trends_short_history hOne (by decide) (by decide)

/-- C9: the patterns, distribution and correlation weight components are
reserved configuration: two weight configurations that agree on the
frequency, recency and gaps components but differ (non-negatively) in the
reserved components produce identical number scores and an identical
PredictionResult for the same history and the same random stream. -/
theorem c9_reserved_weights_no_effect (h : List LottoDraw)
    (w1 w2 : PredictionWeights) (g : ℕ → ℚ)
    (hf : w1.frequency = w2.frequency) (hr : w1.recency = w2.recency)
    (hgp : w1.gaps = w2.gaps)
    (hp1 : 0 ≤ w1.patterns) (hp2 : 0 ≤ w2.patterns)
    (hd1 : 0 ≤ w1.distribution) (hd2 : 0 ≤ w2.distribution)
    (hc1 : 0 ≤ w1.correlation) (hc2 : 0 ≤ w2.correlation) :
    calculateNumberScores (performCompleteAnalysis h) w1
      = calculateNumberScores (performCompleteAnalysis h) w2 ∧
    generatePrediction h w1 g = generatePrediction h w2 g := by
  have hs := calculateNumberScores_congr (performCompleteAnalysis h) w1 w2 hf hr hgp
  refine ⟨hs, ?_⟩
  simp only [generatePrediction]
  rw [hs]

/-- Witness for C9: the default weights against a configuration that
zeroes the three reserved components. -/
theorem c9_reserved_weights_no_effect_witness :
    calculateNumberScores (performCompleteAnalysis hOne) defaultWeights
      = calculateNumberScores (performCompleteAnalysis hOne) ⟨1/4, 1/5, 1/5, 0, 0, 0⟩ ∧
    generatePrediction hOne defaultWeights gHalf
      = generatePrediction hOne ⟨1/4, 1/5, 1/5, 0, 0, 0⟩ gHalf :=
  c9_reserved_weights_no_effect hOne defaultWeights ⟨1/4, 1/5, 1/5, 0, 0, 0⟩ gHalf
    rfl rfl rfl (by norm_num [defaultWeights]) (by norm_num)
    (by norm_num [defaultWeights]) (by norm_num)
    (by norm_num [defaultWeights]) (by norm_num)

/-- C10: every alternative set in the alternativeSets field has exactly 6
elements sorted ascending, but its elements are not guaranteed pairwise
distinct: on the 22-draw history in which number 7 appears only in the
first two draws, 7 is both due and cold, the aggressive pool contains it
twice, and with the constant random stream zero the second alternative set
is [7, 7, 8, 9, 10, 11], which contains 7 twice. -/
theorem c10_alternative_sets :
    (∀ (h : List LottoDraw) (w : PredictionWeights) (g : ℕ → ℚ),
      ∀ s ∈ (generatePrediction h w g).alternativeSets,
        s.length = 6 ∧ List.Sorted (fun x y => x ≤ y) s) ∧
    (∃ s ∈ (generatePrediction h22 defaultWeights gZero).alternativeSets, ¬ s.Nodup) := by
  constructor
  · intro h w g s hs
    rw [gp_altSets] at hs
    exact altSet_shape _ _ _ _ s hs
  · refine ⟨[7, 7, 8, 9, 10, 11], ?_, by decide⟩
    with_unfolding_all decide

/-- Witness for C10: the first alternative set of the 22-draw history is
[1,2,3,4,5,6], and the universal part applies to it. -/
theorem c10_alternative_sets_witness :
    ([1, 2, 3, 4, 5, 6] : List ℕ).length = 6 ∧
    List.Sorted (fun x y => x ≤ y) ([1, 2, 3, 4, 5, 6] : List ℕ) :=
  c10_alternative_sets.1 h22 defaultWeights gZero [1, 2, 3, 4, 5, 6]
    (by with_unfolding_all decide)
